import Mathlib

/-!
Verification of the KML-to-DXF converter (`app.py`, class `KMLtoDXFConverter`).

The Python source is shallowly embedded: each method of the converter class
becomes an executable Lean definition over an explicit element-tree model of
the XML document (post `xml.etree.ElementTree` parse) and an explicit
converter state (the `stats` dictionary and `geometries` list).  Python
floats are modelled as exact scaled decimals (`Dec`), which is faithful here
because the converter only parses, copies and compares coordinate values and
never performs arithmetic on them; the code's float `!=` test is modelled by
exact value comparison (`Dec.eqv`).
-/

/-! ## String helpers modelling Python `str` operations -/

/-- Models Python `str.strip()`: drop whitespace from both ends. -/
def pyStrip (s : String) : String :=
  ⟨((s.toList.dropWhile Char.isWhitespace).reverse.dropWhile Char.isWhitespace).reverse⟩

/-- Split a character list at every character satisfying `p`, keeping empty
pieces (the splitting characters are dropped). -/
def splitOnPred (p : Char → Bool) : List Char → List (List Char)
  | [] => [[]]
  | c :: cs =>
    let r := splitOnPred p cs
    if p c then [] :: r
    else
      match r with
      | t :: ts => (c :: t) :: ts
      | [] => [[c]]

/-- Models Python `str.split()` with no argument: split on runs of
whitespace, dropping empty pieces. -/
def pyWhitespaceSplit (s : String) : List String :=
  ((splitOnPred Char.isWhitespace s.toList).filter (· ≠ [])).map (fun cs => ⟨cs⟩)

/-- Models Python `str.split(',')`: split at every comma, keeping empty
pieces, so the result is never empty. -/
def pySplitComma (s : String) : List String :=
  (splitOnPred (· == ',') s.toList).map (fun cs => ⟨cs⟩)

/-- Models Python `str.lower()` (ASCII case folding, which covers every
string the converter compares). -/
def strLower (s : String) : String :=
  ⟨s.toList.map Char.toLower⟩

/-- Models Python `str.endswith(pat)`. -/
def strEndsWith (s pat : String) : Bool :=
  (s.toList.reverse.take pat.toList.length) == pat.toList.reverse

/-- Models Python `str.startswith(pat)`. -/
def strStartsWith (s pat : String) : Bool :=
  pat.toList.isPrefixOf s.toList

/-- Helper for substring search over character lists. -/
def hasSubstrAux (pat : List Char) : List Char → Bool
  | [] => pat.isEmpty
  | c :: cs => pat.isPrefixOf (c :: cs) || hasSubstrAux pat cs

/-- Models Python `pat in s` (substring containment). -/
def strContains (s pat : String) : Bool :=
  hasSubstrAux pat.toList s.toList

/-- Models Python slicing `s[:n]` (by characters). -/
def strTake (s : String) (n : Nat) : String :=
  ⟨s.toList.take n⟩

/-- Models Python slicing `s[n:]` (by characters). -/
def strDrop (s : String) (n : Nat) : String :=
  ⟨s.toList.drop n⟩

/-! ## Exact decimal numbers modelling Python floats -/

/-- Exact scaled decimal: the value `num / 10 ^ exp`.  Models the Python
floats the converter obtains from `float(...)` on coordinate text; the
converter never does arithmetic on them, only copies and comparisons, so
exact decimals are a faithful model. -/
structure Dec where
  num : Int
  exp : Nat
deriving DecidableEq, Repr

/-- Value equality of two decimals (cross multiplication).  Models the
float equality test Python performs with `==` / `!=`. -/
def Dec.eqv (a b : Dec) : Bool :=
  a.num * (10 : Int) ^ b.exp == b.num * (10 : Int) ^ a.exp

/-- Numeric value of a digit run, most significant first. -/
def digitsVal (ds : List Char) : Nat :=
  ds.foldl (fun a c => 10 * a + (c.toNat - 48)) 0

/-- Models Python `float(s)` on ordinary decimal literals: optional sign,
digits with an optional fractional part, optional decimal exponent; any
other input raises `ValueError`, modelled as `none`.  (The exotic inputs
Python additionally accepts — `inf`, `nan`, underscore separators — never
arise from the coordinate strings this converter handles.) -/
def pyFloat (s : String) : Option Dec :=
  let cs := s.toList
  let (neg, cs) :=
    match cs with
    | '-' :: t => (true, t)
    | '+' :: t => (false, t)
    | _ => (false, cs)
  let (ip, cs) := cs.span Char.isDigit
  let (fp, cs) :=
    match cs with
    | '.' :: t => t.span Char.isDigit
    | _ => ([], cs)
  if ip.isEmpty && fp.isEmpty then none
  else
    let (expOk, eNeg, eds, cs) :=
      match cs with
      | c :: t =>
        if c == 'e' || c == 'E' then
          let (es, t2) :=
            match t with
            | '-' :: u => (true, u)
            | '+' :: u => (false, u)
            | _ => (false, t)
          let (eds, r) := t2.span Char.isDigit
          (!eds.isEmpty, es, eds, r)
        else (false, false, [], c :: t)
      | [] => (true, false, [], [])
    if !cs.isEmpty then none
    else if !expOk then none
    else
      let num0 : Int := Int.ofNat (digitsVal (ip ++ fp))
      let e := digitsVal eds
      let d : Dec :=
        if eNeg then ⟨num0, fp.length + e⟩
        else ⟨num0 * (10 : Int) ^ e, fp.length⟩
      some (if neg then ⟨-d.num, d.exp⟩ else d)

/-! ## Coordinate parsing (`parse_coordinates`) -/

/-- Coordinate triple (lon, lat, elevation), exactly as the source stores
`(lon, lat, elev)` tuples. -/
def Coord := Dec × Dec × Dec
deriving DecidableEq, Repr

/-- Value equality of coordinates, componentwise; models the tuple float
comparison `coordinates[0] != coordinates[-1]` in the source. -/
def Coord.eqv (a b : Coord) : Bool :=
  Dec.eqv a.1 b.1 && Dec.eqv a.2.1 b.2.1 && Dec.eqv a.2.2 b.2.2

/-- Per-token parse inside `parse_coordinates`: split the token at commas,
require at least two fields, parse longitude and latitude (skipping the
token when either fails), and parse an optional third field as elevation,
defaulting to `0.0` when it is missing or non-numeric. -/
def parseCoordToken (line : String) : Option Coord :=
  match pySplitComma (pyStrip line) with
  | p0 :: p1 :: rest =>
    match pyFloat (pyStrip p0), pyFloat (pyStrip p1) with
    | some lon, some lat =>
      let elev : Dec :=
        match rest with
        | p2 :: _ => (pyFloat (pyStrip p2)).getD ⟨0, 0⟩
        | [] => ⟨0, 0⟩
      some (lon, lat, elev)
    | _, _ => none
  | _ => none

/-- Embeds `KMLtoDXFConverter.parse_coordinates`: empty text yields no
coordinates; otherwise the stripped text is split on whitespace and each
token parsed independently, malformed tokens being silently dropped. -/
def parse_coordinates (t : String) : List Coord :=
  if t = "" then []
  else (pyWhitespaceSplit (pyStrip t)).filterMap parseCoordToken

/-! ## Element tree model of the parsed XML document -/

/-! An `xml.etree.ElementTree` element after XML parsing is modelled by
`Element`: full tag (with any namespace part written as in ElementTree,
i.e. the URI between braces), attribute list, text content, child elements
in document order.  `ElemList` replaces `List Element` so that all
recursions are structural. -/
mutual
inductive Element : Type where
  | mk : String → List (String × String) → Option String → ElemList → Element
inductive ElemList : Type where
  | nil : ElemList
  | cons : Element → ElemList → ElemList
end

def Element.tag : Element → String
  | .mk t _ _ _ => t

def Element.attrs : Element → List (String × String)
  | .mk _ a _ _ => a

def Element.text : Element → Option String
  | .mk _ _ tx _ => tx

def ElemList.toList : ElemList → List Element
  | .nil => []
  | .cons e es => e :: ElemList.toList es

/-- Direct children of an element, in document order. -/
def Element.childList : Element → List Element
  | .mk _ _ _ cs => cs.toList

/-! Strict descendants of an element in document (preorder) order; this is
the iteration order of ElementTree `find` / `findall` with a `.//` path. -/
mutual
def Element.descendants : Element → List Element
  | .mk _ _ _ cs => ElemList.descList cs
def ElemList.descList : ElemList → List Element
  | .nil => []
  | .cons c cs => c :: (Element.descendants c ++ ElemList.descList cs)
end

def listToElems : List Element → ElemList
  | [] => .nil
  | e :: es => .cons e (listToElems es)

/-- Convenience constructor for elements without attributes. -/
def el (tag : String) (text : Option String) (children : List Element) : Element :=
  .mk tag [] text (listToElems children)

/-- Convenience constructor for elements with attributes. -/
def elA (tag : String) (attrs : List (String × String)) (text : Option String)
    (children : List Element) : Element :=
  .mk tag attrs text (listToElems children)

/-- Models ElementTree `elem.get(k)` attribute lookup. -/
def Element.attr (e : Element) (k : String) : Option String :=
  (e.attrs.find? (fun p => p.1 == k)).map (fun p => p.2)

/-- Local part of an ElementTree tag, as the converter computes it in
`process_placemark`: split the tag at the closing-brace character and take
the last part when the split produced more than one part, the whole tag
otherwise. -/
def localName (tag : String) : String :=
  let ps := (splitOnPred (· == '\x7d') tag.toList).map (fun cs => (⟨cs⟩ : String))
  if 1 < ps.length then ps.getLastD tag else tag

/-- Models `findall` with the `.//` prefix and a namespace-wildcard local
name, e.g. `findall('.//X')` with any-namespace matching: every strict
descendant whose local tag name is `n`, in document order. -/
def findAllLocal (e : Element) (n : String) : List Element :=
  e.descendants.filter (fun d => localName d.tag == n)

/-- Models `find` with the `.//` prefix and a namespace-wildcard local
name: the first strict descendant whose local tag name is `n`. -/
def findLocal (e : Element) (n : String) : Option Element :=
  (findAllLocal e n).head?

/-- Models `findall('.//T')` with an exact (namespace-qualified or plain)
tag `T`. -/
def findAllExactTag (e : Element) (t : String) : List Element :=
  e.descendants.filter (fun d => d.tag == t)

/-- Python truthiness of an ElementTree text field: the converter guards
every text access with `elem.text` (or `is not None and ... .text`), which
rejects both a missing text and the empty string. -/
def truthyText (e : Element) : Option String :=
  match e.text with
  | some t => if t = "" then none else some t
  | none => none

/-! ## Style resolution (`extract_style_info` and helpers) -/

/-- Models the style dictionary built by `extract_style_info`: DXF color
index, line width, layer name, polygon fill flag, display name. -/
structure Style where
  color : Nat
  width : Dec
  layer : String
  filled : Bool
  name : String
deriving DecidableEq, Repr

/-- Value of one hexadecimal digit, as `int(.., 16)` reads it. -/
def hexDigitVal (c : Char) : Option Nat :=
  if c.isDigit then some (c.toNat - 48)
  else if 'a' ≤ c ∧ c ≤ 'f' then some (c.toNat - 87)
  else if 'A' ≤ c ∧ c ≤ 'F' then some (c.toNat - 55)
  else none

/-- Parse the two hex digits of `s` starting at character index `i`, as
`int(s[i:i+2], 16)` does on a 2-character slice. -/
def hexByte (s : String) (i : Nat) : Option Nat :=
  match s.toList.drop i with
  | a :: b :: _ =>
    match hexDigitVal a, hexDigitVal b with
    | some x, some y => some (16 * x + y)
    | _, _ => none
  | _ => none

/-- Embeds `kml_color_to_dxf`: map a KML `#aabbggrr` color string to a DXF
color index, falling back to 7 (white) on any malformed input (a hex-parse
failure inside the `try` block also yields 7).  The source computes the
brightness `(rr+gg+bb)/3` in float arithmetic and compares it with 30,
100, 150 and 200; no quotient can fall within float rounding error of a
threshold without being exactly equal, so the comparisons are modelled
exactly by comparing `rr+gg+bb` with the tripled thresholds. -/
def kml_color_to_dxf (c : String) : Nat :=
  if c = "" then 7
  else
    let c := pyStrip c
    if strStartsWith c "#" = false then 7
    else
      let hex := strDrop c 1
      if hex.toList.length = 8 then
        match hexByte hex 6, hexByte hex 4, hexByte hex 2 with
        | some rr, some gg, some bb =>
          let s := rr + gg + bb
          if s < 90 then 0
          else if s < 300 then 8
          else if s < 450 then 7
          else if max gg bb < rr then 1
          else if max rr bb < gg then 3
          else if max rr gg < bb then 5
          else if 600 < s then 2
          else 4
        | _, _, _ => 7
      else 7

/-- Embeds `find_style_by_id`: scan `root.iter()` (the root and then every
descendant, in document order) for the first element whose tag contains
the substring `Style` and whose `id` attribute equals `sid`. -/
def find_style_by_id (root : Element) (sid : String) : Option Element :=
  ((root :: root.descendants).filter
    (fun e => strContains e.tag "Style" && e.attr "id" == some sid)).head?

/-- Characters kept when deriving a layer name from a display name:
`c.isalnum() or c in ' _-'`.  `Char.isAlphanum` matches Python `isalnum`
on the ASCII names this converter handles. -/
def layerNameFilter (t : String) : String :=
  ⟨t.toList.filter (fun c => c.isAlphanum || c == ' ' || c == '_' || c == '-')⟩

/-- Default style dictionary, as initialised at the top of
`extract_style_info`. -/
def defaultStyle : Style :=
  { color := 7, width := ⟨0, 0⟩, layer := "0", filled := true, name := "Unnamed" }

/-- Part of `extract_style_info`: overwrite the color, width and fill
fields of `st` from a resolved style definition element, leaving each
field unchanged when the corresponding sub-element or text is missing. -/
def applyStyleDef (style_def : Element) (st : Style) : Style :=
  let st :=
    match findLocal style_def "LineStyle" with
    | some line_style =>
      let st :=
        match findLocal line_style "color" with
        | some ce =>
          match truthyText ce with
          | some t => { st with color := kml_color_to_dxf t }
          | none => st
        | none => st
      match findLocal line_style "width" with
      | some we =>
        match truthyText we with
        | some t => { st with width := (pyFloat (pyStrip t)).getD ⟨0, 0⟩ }
        | none => st
      | none => st
    | none => st
  match findLocal style_def "PolyStyle" with
  | some poly_style =>
    match findLocal poly_style "fill" with
    | some fe =>
      match truthyText fe with
      | some t => { st with filled := pyStrip t = "1" }
      | none => st
    | none => st
  | none => st

/-- Embeds `extract_style_info`: derive name and layer from the
placemark's `name` element, then resolve an optional `styleUrl` reference
against the whole document. -/
def extract_style_info (placemark root : Element) : Style :=
  let st := defaultStyle
  let st :=
    match findLocal placemark "name" with
    | some ne =>
      match truthyText ne with
      | some t =>
        let safe_name := layerNameFilter (pyStrip t)
        { st with
          layer := if safe_name ≠ "" then strTake safe_name 31 else "Layer_0",
          name := pyStrip t }
      | none => { st with layer := "Layer_0", name := "Unnamed" }
    | none => { st with layer := "Layer_0", name := "Unnamed" }
  match findLocal placemark "styleUrl" with
  | some su =>
    match truthyText su with
    | some t =>
      let style_id : String := ⟨(pyStrip t).toList.filter (fun c => c ≠ '#')⟩
      if style_id ≠ "" then
        match find_style_by_id root style_id with
        | some style_def => applyStyleDef style_def st
        | none => st
      else st
    | none => st
  | none => st

/-! ## Extracted geometry features and converter state -/

/-- Models one entry of `self.geometries`: the dictionary
`(type, coordinates, style, count)` appended by the processors.  The type
tag is kept as the literal string the source stores. -/
structure Geometry where
  type : String
  coordinates : List Coord
  style : Style
  count : Nat
deriving DecidableEq, Repr

/-- Models `self.stats`.  The `layers` entry is a Python `set`; it is
modelled as a duplicate-free list in insertion order (the converter only
adds members and takes the size). -/
structure Stats where
  total_placemarks : Nat
  points : Nat
  lines : Nat
  polygons : Nat
  multigeometries : Nat
  layers : List String
deriving DecidableEq, Repr

/-- Models `set.add`: insert a layer name if not already present. -/
def insertLayer (ls : List String) (l : String) : List String :=
  if l ∈ ls then ls else ls ++ [l]

/-- Mutable converter state: the stats dictionary plus the geometry
list. -/
structure ConvState where
  stats : Stats
  geometries : List Geometry
deriving DecidableEq, Repr

/-- Models `self.geometries.append(g)`. -/
def ConvState.append (s : ConvState) (g : Geometry) : ConvState :=
  { s with geometries := s.geometries ++ [g] }

/-- Fresh converter state, as `__init__` builds it. -/
def initState : ConvState :=
  { stats := { total_placemarks := 0, points := 0, lines := 0, polygons := 0,
               multigeometries := 0, layers := [] },
    geometries := [] }

/-! ## Geometry processors -/

/-- The POINT geometry dictionary `process_point` appends for one parsed
coordinate. -/
def pointGeom (st : Style) (c : Coord) : Geometry :=
  { type := "POINT", coordinates := [c], style := st, count := 1 }

/-- Loop body of `process_point`: append one POINT geometry per
coordinate. -/
def appendPointStep (st : Style) (s : ConvState) (c : Coord) : ConvState :=
  s.append (pointGeom st c)

/-- Embeds `process_point`: each parsed coordinate of the first
`coordinates` descendant becomes its own POINT geometry with a one-element
coordinate list, and the points statistic grows by the number of parsed
coordinates. -/
def process_point (g : Element) (st : Style) (s : ConvState) : ConvState × Bool :=
  match findLocal g "coordinates" with
  | some ce =>
    match truthyText ce with
    | some t =>
      let coordinates := parse_coordinates t
      if coordinates.isEmpty then (s, false)
      else
        let s := coordinates.foldl (appendPointStep st) s
        ({ s with stats := { s.stats with points := s.stats.points + coordinates.length } }, true)
    | none => (s, false)
  | none => (s, false)

/-- Embeds `process_linestring`: a LINESTRING geometry is stored when at
least two coordinates parse. -/
def process_linestring (g : Element) (st : Style) (s : ConvState) : ConvState × Bool :=
  match findLocal g "coordinates" with
  | some ce =>
    match truthyText ce with
    | some t =>
      let coordinates := parse_coordinates t
      if 2 ≤ coordinates.length then
        let s := s.append { type := "LINESTRING", coordinates := coordinates, style := st,
                            count := coordinates.length }
        ({ s with stats := { s.stats with lines := s.stats.lines + 1 } }, true)
      else (s, false)
    | none => (s, false)
  | none => (s, false)

/-- Ring closing step of `process_polygon`: when the first and last
coordinates differ (as float values), append the first coordinate. -/
def closeRing (cs : List Coord) : List Coord :=
  match cs.head?, cs.getLast? with
  | some f, some l => if Coord.eqv f l then cs else cs ++ [f]
  | _, _ => cs

/-- Inner-boundary step of `process_polygon`: an `innerBoundaryIs` element
yields a POLYGON_HOLE geometry when its ring has a nonempty `coordinates`
text with at least three parsed coordinates; the hole ring is closed the
same way as the outer ring. -/
def innerHole (st : Style) (inner : Element) : Option Geometry :=
  match findLocal inner "LinearRing" with
  | some ir =>
    match findLocal ir "coordinates" with
    | some ce =>
      match truthyText ce with
      | some t =>
        let ics := parse_coordinates t
        if 3 ≤ ics.length then
          some { type := "POLYGON_HOLE", coordinates := closeRing ics, style := st,
                 count := (closeRing ics).length }
        else none
      | none => none
    | none => none
  | none => none

/-- Loop body of the inner-boundary pass of `process_polygon`: append the
hole geometry when the inner ring is valid, leave the state unchanged
otherwise. -/
def appendHoleStep (st : Style) (s : ConvState) (inner : Element) : ConvState :=
  match innerHole st inner with
  | some geo => s.append geo
  | none => s

/-- Embeds `process_polygon`: read the outer boundary ring; when it has at
least three parsed coordinates, close it, store it as a POLYGON, bump the
polygon statistic, then store every valid inner boundary ring as a
POLYGON_HOLE.  When the outer boundary chain fails at any step, nothing is
stored (inner rings included) and the call reports failure. -/
def process_polygon (g : Element) (st : Style) (s : ConvState) : ConvState × Bool :=
  match findLocal g "outerBoundaryIs" with
  | some ob =>
    match findLocal ob "LinearRing" with
    | some lr =>
      match findLocal lr "coordinates" with
      | some ce =>
        match truthyText ce with
        | some t =>
          let cs := parse_coordinates t
          if 3 ≤ cs.length then
            let ring := closeRing cs
            let s := s.append { type := "POLYGON", coordinates := ring, style := st,
                                count := ring.length }
            let s := { s with stats := { s.stats with polygons := s.stats.polygons + 1 } }
            let s := (findAllLocal g "innerBoundaryIs").foldl (appendHoleStep st) s
            (s, true)
          else (s, false)
        | none => (s, false)
      | none => (s, false)
    | none => (s, false)
  | none => (s, false)

/-- Child dispatch inside the MultiGeometry loop of `process_placemark`:
the child's local tag name selects the processor, any other tag is
ignored, and the processor's success flag is discarded. -/
def processMultiChild (st : Style) (s : ConvState) (ch : Element) : ConvState :=
  let t := localName ch.tag
  if t = "Point" then (process_point ch st s).1
  else if t = "LineString" then (process_linestring ch st s).1
  else if t = "Polygon" then (process_polygon ch st s).1
  else s

/-- Layer-recording step at the start of `process_placemark`: the
resolved layer name is added to the layer set of the stats. -/
def addLayerState (st : Style) (s : ConvState) : ConvState :=
  { s with stats := { s.stats with layers := insertLayer s.stats.layers st.layer } }

/-- Multigeometry counter bump inside the MultiGeometry branch of
`process_placemark`. -/
def bumpMultiStat (s : ConvState) : ConvState :=
  { s with stats := { s.stats with multigeometries := s.stats.multigeometries + 1 } }

/-- One dispatch stage of `process_placemark`: when the searched geometry
element was found, run its processor; otherwise leave the state unchanged
and report no success. -/
def dispatchStage (find : Option Element)
    (proc : Element → ConvState → ConvState × Bool) (s : ConvState) : ConvState × Bool :=
  match find with
  | some e => proc e s
  | none => (s, false)

/-- Embeds `process_placemark`: resolve the style, record the layer, then
try in order the first `Point`, `LineString` and `Polygon` descendant
(each search also reaching inside any MultiGeometry), first success
winning; when all three fail, a `MultiGeometry` descendant is processed by
dispatching each direct child through the same per-kind processors, and
the placemark counts as processed. -/
def process_placemark (pm root : Element) (s : ConvState) : ConvState × Bool :=
  let style_info := extract_style_info pm root
  let s1 := addLayerState style_info s
  let r1 := dispatchStage (findLocal pm "Point")
    (fun e => process_point e style_info) s1
  let r2 :=
    if r1.2 then r1
    else dispatchStage (findLocal pm "LineString")
      (fun e => process_linestring e style_info) r1.1
  let r3 :=
    if r2.2 then r2
    else dispatchStage (findLocal pm "Polygon")
      (fun e => process_polygon e style_info) r2.1
  if r3.2 then (r3.1, true)
  else
    match findLocal pm "MultiGeometry" with
    | some me => (me.childList.foldl (processMultiChild style_info) (bumpMultiStat r3.1), true)
    | none => (r3.1, false)

/-! ## Document-level extraction (`parse_kml`, `extract_geometries_directly`) -/

/-- Style dictionary used by `extract_geometries_directly` for every
feature it creates, parameterised only by the display name literal of the
branch. -/
def extractedStyle (n : String) : Style :=
  { color := 7, width := ⟨0, 0⟩, layer := "Extracted", filled := true, name := n }

/-- Per-element classification of `extract_geometries_directly`: a
`coordinates` element with nonempty text is classified by its parsed
coordinate count — one coordinate yields a POINT, two a LINESTRING, three
or more a POLYGON (stored as parsed, without ring closing); no parsed
coordinates yield nothing. -/
def directFeature (e : Element) : Option Geometry :=
  match truthyText e with
  | some t =>
    let cs := parse_coordinates t
    if cs.isEmpty then none
    else if cs.length = 1 then
      some { type := "POINT", coordinates := cs, style := extractedStyle "Point", count := 1 }
    else if cs.length = 2 then
      some { type := "LINESTRING", coordinates := cs, style := extractedStyle "Line", count := 2 }
    else
      some { type := "POLYGON", coordinates := cs, style := extractedStyle "Polygon",
             count := cs.length }
  | none => none

/-- Loop body of `extract_geometries_directly`: append the classified
feature (if any) and update the matching statistic and the layer set. -/
def directStep (s : ConvState) (e : Element) : ConvState :=
  match truthyText e with
  | some t =>
    let cs := parse_coordinates t
    if cs.isEmpty then s
    else if cs.length = 1 then
      { s with
        geometries := s.geometries ++
          [{ type := "POINT", coordinates := cs, style := extractedStyle "Point", count := 1 }]
        stats := { s.stats with
          points := s.stats.points + 1
          layers := insertLayer s.stats.layers "Extracted" } }
    else if cs.length = 2 then
      { s with
        geometries := s.geometries ++
          [{ type := "LINESTRING", coordinates := cs, style := extractedStyle "Line", count := 2 }]
        stats := { s.stats with
          lines := s.stats.lines + 1
          layers := insertLayer s.stats.layers "Extracted" } }
    else
      { s with
        geometries := s.geometries ++
          [{ type := "POLYGON", coordinates := cs, style := extractedStyle "Polygon",
             count := cs.length }]
        stats := { s.stats with
          polygons := s.stats.polygons + 1
          layers := insertLayer s.stats.layers "Extracted" } }
  | none => s

/-- Embeds `extract_geometries_directly`: scan every `coordinates`
descendant of the root and classify each; report success exactly when the
geometry list is nonempty afterwards. -/
def extract_geometries_directly (root : Element) (s : ConvState) : ConvState × Bool :=
  let s := (findAllLocal root "coordinates").foldl directStep s
  (s, decide (0 < s.geometries.length))

/-- Namespace URIs the converter tries in order when looking for
placemarks. -/
def nsCandidates : List String :=
  ["http://www.opengis.net/kml/2.2",
   "http://earth.google.com/kml/2.0",
   "http://earth.google.com/kml/2.1",
   "http://www.opengis.net/kml/2.1"]

/-- Placemark discovery cascade of `parse_kml`: try each known namespace
URI as an exact qualified tag, then the bare tag `Placemark`, then a
namespace-wildcard local-name match. -/
def findPlacemarks (root : Element) : List Element :=
  let attempts := nsCandidates.map
    (fun ns => findAllExactTag root ("\x7b" ++ ns ++ "\x7d" ++ "Placemark"))
  match attempts.find? (fun l => !l.isEmpty) with
  | some pms => pms
  | none =>
    let p2 := findAllExactTag root "Placemark"
    if !p2.isEmpty then p2 else findAllLocal root "Placemark"

/-- Placemark loop of `parse_kml`: process each placemark, counting the
successes.  (The source wraps each iteration in a broad `except ...
continue`; the model cannot raise, so the handler is unreachable.) -/
def processPlacemarks (pms : List Element) (root : Element) (s : ConvState) :
    ConvState × Nat :=
  pms.foldl
    (fun acc pm =>
      let r := process_placemark pm root acc.1
      (r.1, if r.2 then acc.2 + 1 else acc.2)) (s, 0)

/-- Embeds `parse_kml` from the successful-XML-parse point on (XML
deserialisation itself is the external `xml.etree` library; its output is
the `root` element).  Record the placemark count; with no placemarks at
all, or with no placemark yielding any geometry, fall back to
`extract_geometries_directly`; otherwise succeed exactly when at least one
geometry was collected. -/
def parse_kml (root : Element) (s : ConvState) : ConvState × Bool :=
  let pms := findPlacemarks root
  let s := { s with stats := { s.stats with total_placemarks := pms.length } }
  if pms.isEmpty then extract_geometries_directly root s
  else
    let r := processPlacemarks pms root s
    if r.2 = 0 then extract_geometries_directly root r.1
    else (r.1, decide (0 < r.1.geometries.length))

/-! ## DXF emission (`create_dxf`) -/

/-- DXF conversion options read from the sidebar checkboxes. -/
structure Options where
  simplify_lines : Bool
  create_hatch : Bool
deriving DecidableEq, Repr

/-- Models the modelspace entities `create_dxf` can add through `ezdxf`.
The `text` constructor covers the TEXT entity kind of the DXF format; the
emitter never produces it (there is no `add_text` call in the source). -/
inductive Entity : Type where
  | point : Coord → String → Nat → Entity
  | line : Coord → Coord → String → Nat → Int → Entity
  | polyline3d : List Coord → String → Nat → Int → Entity
  | hatch : List (Dec × Dec) → String → Nat → Entity
  | text : String → Coord → String → Nat → Entity
deriving DecidableEq, Repr

/-- Recognises the TEXT entity kind. -/
def isTextEntity : Entity → Bool
  | .text _ _ _ _ => true
  | _ => false

/-- Models `int(style['width'] * 100) if style['width'] > 0 else 0`
(`int` truncates; the guard makes truncation and floor agree). -/
def lineweightOf (w : Dec) : Int :=
  if 0 < w.num then Int.tdiv (w.num * 100) ((10 : Int) ^ w.exp) else 0

/-- Per-geometry entity construction inside the `create_dxf` loop, with
every `ezdxf` call assumed to succeed: POINT adds one DXF point per
coordinate; LINESTRING adds a simple line for two-point lines when the
simplify option is on, a 3D polyline otherwise; POLYGON and POLYGON_HOLE
add a hatch for filled polygons when the hatch option is on, a 3D polyline
otherwise; anything else adds nothing. -/
def emit_geom (opts : Options) (g : Geometry) : List Entity :=
  let layer_name := if g.style.layer ≠ "" then pyStrip (strTake g.style.layer 31) else "0"
  let color := g.style.color
  if g.type = "POINT" ∧ ¬ g.coordinates.isEmpty then
    g.coordinates.map (fun c => .point c layer_name color)
  else if g.type = "LINESTRING" ∧ 2 ≤ g.coordinates.length then
    if opts.simplify_lines ∧ g.coordinates.length = 2 then
      match g.coordinates with
      | a :: b :: _ => [.line a b layer_name color (lineweightOf g.style.width)]
      | _ => []
    else [.polyline3d g.coordinates layer_name color (lineweightOf g.style.width)]
  else if (g.type = "POLYGON" ∨ g.type = "POLYGON_HOLE") ∧ 3 ≤ g.coordinates.length then
    if opts.create_hatch ∧ g.type = "POLYGON" ∧ g.style.filled then
      [.hatch (g.coordinates.map (fun c => (c.1, c.2.1))) layer_name color]
    else [.polyline3d g.coordinates layer_name color 0]
  else []

/-- Entity loop of `create_dxf`, parameterised over the per-geometry
emitter: the `ezdxf` entity constructors are external library calls that
may raise, so the emitter returns `none` for a geometry whose conversion
fails; the surrounding `try ... except ... continue` skips exactly that
geometry and keeps emitting the rest. -/
def create_dxf_entities (em : Geometry → Option (List Entity)) :
    List Geometry → List Entity
  | [] => []
  | g :: gs =>
    match em g with
    | some es => es ++ create_dxf_entities em gs
    | none => create_dxf_entities em gs

/-- Embeds the entity-production part of `create_dxf` in the run where
every `ezdxf` call succeeds. -/
def create_dxf (opts : Options) (gs : List Geometry) : List Entity :=
  create_dxf_entities (fun g => some (emit_geom opts g)) gs

/-! ## KMZ entry selection (`main`) -/

/-- The `.kml` entries of a KMZ archive listing, in listing order. -/
def kmlEntries (names : List String) : List String :=
  names.filter (fun f => strEndsWith (strLower f) ".kml")

/-- The sort key `'doc.kml' in x.lower()` used on the entry list. -/
def hasDocKml (x : String) : Bool :=
  strContains (strLower x) "doc.kml"

/-- Models `kml_files.sort(key=lambda x: 'doc.kml' in x.lower(),
reverse=True)`: Python's sort is stable, and reversing a boolean key
places the `doc.kml`-containing entries first, each group keeping listing
order. -/
def sortDocFirst (l : List String) : List String :=
  l.filter hasDocKml ++ l.filter (fun x => !hasDocKml x)

/-- Embeds the KMZ branch of `main`: keep the `.kml` entries, prefer those
containing `doc.kml`, take the first; no `.kml` entry at all is the error
branch, modelled as `none`. -/
def select_kml (names : List String) : Option String :=
  let ks := kmlEntries names
  if ks.isEmpty then none else (sortDocFirst ks).head?

/-! ## Derived predicates and concrete fixtures -/

/-- Closure test on a coordinate ring, in the sense of the float equality
test the source uses: first and last coordinates are value-equal (an empty
or singleton list is trivially closed). -/
def ringClosed (cs : List Coord) : Bool :=
  match cs.head?, cs.getLast? with
  | some f, some l => Coord.eqv f l
  | _, _ => true

/-- The feature-type strings the processors can store. -/
def producedType (ty : String) : Prop :=
  ty = "POINT" ∨ ty = "LINESTRING" ∨ ty = "POLYGON" ∨ ty = "POLYGON_HOLE"

/-- One state extends another by produced-type features only. -/
def extendsProduced (s s' : ConvState) : Prop :=
  ∀ geo ∈ s'.geometries, geo ∈ s.geometries ∨ producedType geo.type

/-- Default conversion options of the sidebar: simplify lines on, hatch
off. -/
def demoOpts : Options := { simplify_lines := true, create_hatch := false }

/-- Scenario input: a document whose only placemark is named A and holds a
Point at 10,20,0. -/
def scenarioARoot : Element :=
  el "kml" none [el "Document" none [el "Placemark" none
    [el "name" (some "A") [],
     el "Point" none [el "coordinates" (some "10,20,0") []]]]]

/-- A document with no placemark: its only geometry is a bare
3-coordinate `coordinates` element, an unclosed triangle. -/
def unclosedDirectRoot : Element :=
  el "kml" none [el "coordinates" (some "0,0,0 1,0,0 2,1,0") []]

/-- A polygon element whose outer ring is an unclosed square. -/
def unclosedOuterPolygon : Element :=
  el "Polygon" none [el "outerBoundaryIs" none [el "LinearRing" none
    [el "coordinates" (some "0,0 1,0 1,1 0,1") []]]]

/-- The closed POLYGON geometry `process_polygon` stores for
`unclosedOuterPolygon`. -/
def closedSquareGeom : Geometry :=
  { type := "POLYGON",
    coordinates :=
      [(⟨0,0⟩, ⟨0,0⟩, ⟨0,0⟩), (⟨1,0⟩, ⟨0,0⟩, ⟨0,0⟩), (⟨1,0⟩, ⟨1,0⟩, ⟨0,0⟩),
       (⟨0,0⟩, ⟨1,0⟩, ⟨0,0⟩), (⟨0,0⟩, ⟨0,0⟩, ⟨0,0⟩)],
    style := defaultStyle, count := 5 }

/-- A placemark whose only geometry is a MultiGeometry holding a valid
Point and a valid 3-vertex LineString. -/
def multiPointLinePm : Element :=
  el "Placemark" none
    [el "name" (some "M") [],
     el "MultiGeometry" none
       [el "Point" none [el "coordinates" (some "1,2,0") []],
        el "LineString" none [el "coordinates" (some "0,0,0 1,1,0 2,2,0") []]]]

/-- The LineString child of `multiPointLinePm`, as its own element. -/
def multiLineChild : Element :=
  el "LineString" none [el "coordinates" (some "0,0,0 1,1,0 2,2,0") []]

/-- A placemark whose MultiGeometry holds a coordinate-less Point followed
by a valid Point, so every direct dispatch stage fails and the
MultiGeometry branch runs. -/
def multiTwoPointsPm : Element :=
  el "Placemark" none
    [el "MultiGeometry" none
      [el "Point" none [],
       el "Point" none [el "coordinates" (some "5,6,0") []]]]

/-- The MultiGeometry element of `multiTwoPointsPm`. -/
def multiTwoPointsMe : Element :=
  el "MultiGeometry" none
    [el "Point" none [],
     el "Point" none [el "coordinates" (some "5,6,0") []]]

/-- Demo POINT feature. -/
def demoPointGeom : Geometry :=
  { type := "POINT", coordinates := [(⟨1,0⟩, ⟨2,0⟩, ⟨0,0⟩)], style := defaultStyle, count := 1 }

/-- Demo LINESTRING feature. -/
def demoLineGeom : Geometry :=
  { type := "LINESTRING",
    coordinates := [(⟨0,0⟩, ⟨0,0⟩, ⟨0,0⟩), (⟨1,0⟩, ⟨1,0⟩, ⟨0,0⟩)],
    style := defaultStyle, count := 2 }

/-- Demo POLYGON feature. -/
def demoPolyGeom : Geometry :=
  { type := "POLYGON",
    coordinates :=
      [(⟨0,0⟩, ⟨0,0⟩, ⟨0,0⟩), (⟨1,0⟩, ⟨0,0⟩, ⟨0,0⟩), (⟨0,0⟩, ⟨1,0⟩, ⟨0,0⟩),
       (⟨0,0⟩, ⟨0,0⟩, ⟨0,0⟩)],
    style := defaultStyle, count := 4 }

/-- A per-feature emitter that fails (raises, in the source) exactly on
LINESTRING features and otherwise behaves like the successful emitter. -/
def demoFailingEmitter : Geometry → Option (List Entity) :=
  fun g => if g.type = "LINESTRING" then none else some (emit_geom demoOpts g)

/-- The POINT feature extracted from `scenarioARoot`. -/
def scenarioAGeom : Geometry :=
  { type := "POINT", coordinates := [(⟨10,0⟩, ⟨20,0⟩, ⟨0,0⟩)],
    style := { color := 7, width := ⟨0,0⟩, layer := "A", filled := true, name := "A" },
    count := 1 }

/-- A polygon element with a valid 3-coordinate inner boundary ring but no
outer boundary at all. -/
def innerOnlyPolygon : Element :=
  el "Polygon" none
    [el "innerBoundaryIs" none [el "LinearRing" none
       [el "coordinates" (some "0,0 1,0 0,1") []]]]

/-- A polygon element with a closed outer square and one triangular inner
ring. -/
def outerInnerPolygon : Element :=
  el "Polygon" none
    [el "outerBoundaryIs" none [el "LinearRing" none
       [el "coordinates" (some "0,0 4,0 4,4 0,4 0,0") []]],
     el "innerBoundaryIs" none [el "LinearRing" none
       [el "coordinates" (some "1,1 2,1 1,2") []]]]

/-- A well-formed document with no placemark and no coordinates
element. -/
def emptyDocRoot : Element :=
  el "kml" none [el "Document" none [el "name" (some "Empty") []]]

/-- A Point element whose coordinate text holds two valid tokens. -/
def twoPointElem : Element :=
  el "Point" none [el "coordinates" (some "1,1,0 2,2,0") []]

/-- A bare coordinates element with exactly two parsed coordinates. -/
def twoCoordElem : Element := el "coordinates" (some "7,8 9,10") []

/-! ## General lemmas about the embedded operations -/

theorem dec_eqv_self (d : Dec) : Dec.eqv d d = true := by
  simp [Dec.eqv]

theorem coord_eqv_self (c : Coord) : Coord.eqv c c = true := by
  simp [Coord.eqv, dec_eqv_self]

theorem ringClosed_closeRing (cs : List Coord) (h : cs ≠ []) :
    ringClosed (closeRing cs) = true := by
  match cs, h with
  | c :: t, _ =>
    simp only [closeRing, List.head?_cons]
    rcases hl : (c :: t).getLast? with _ | l
    · simp at hl
    · by_cases he : Coord.eqv c l = true
      · simp [he, ringClosed, hl]
      · simp only [he, Bool.false_eq_true, if_false, if_neg]
        simp only [ringClosed, ← List.cons_append, List.getLast?_concat]
        exact coord_eqv_self c

theorem foldl_appendPointStep (st : Style) :
    ∀ (l : List Coord) (s : ConvState),
    l.foldl (appendPointStep st) s =
      { s with geometries := s.geometries ++ l.map (pointGeom st) } := by
  intro l
  induction l with
  | nil => intro s; simp
  | cons a t ih =>
    intro s
    simp only [List.foldl_cons, List.map_cons]
    rw [ih]
    simp [appendPointStep, ConvState.append]

theorem foldl_appendHoleStep (st : Style) :
    ∀ (l : List Element) (s : ConvState),
    l.foldl (appendHoleStep st) s =
      { s with geometries := s.geometries ++ l.filterMap (innerHole st) } := by
  intro l
  induction l with
  | nil => intro s; simp
  | cons a t ih =>
    intro s
    simp only [List.foldl_cons, List.filterMap_cons]
    cases h : innerHole st a with
    | none => simp only [appendHoleStep, h]; rw [ih]
    | some g =>
      simp only [appendHoleStep, h]
      rw [ih]
      simp [ConvState.append]

theorem mem_process_point_geoms (g : Element) (st : Style) (s : ConvState) (geo : Geometry)
    (h : geo ∈ (process_point g st s).1.geometries) :
    geo ∈ s.geometries ∨ geo.type = "POINT" := by
  unfold process_point at h
  rcases hf : findLocal g "coordinates" with _ | ce
  · simp only [hf] at h; exact Or.inl h
  · simp only [hf] at h
    rcases ht : truthyText ce with _ | t
    · simp only [ht] at h; exact Or.inl h
    · simp only [ht] at h
      by_cases hne : (parse_coordinates t).isEmpty
      · simp only [hne, if_true] at h; exact Or.inl h
      · simp only [hne, if_false, Bool.false_eq_true] at h
        simp only [foldl_appendPointStep, List.mem_append] at h
        rcases h with h | h
        · exact Or.inl h
        · rcases List.mem_map.mp h with ⟨c, _, rfl⟩
          exact Or.inr rfl

theorem mem_process_linestring_geoms (g : Element) (st : Style) (s : ConvState) (geo : Geometry)
    (h : geo ∈ (process_linestring g st s).1.geometries) :
    geo ∈ s.geometries ∨ geo.type = "LINESTRING" := by
  unfold process_linestring at h
  rcases hf : findLocal g "coordinates" with _ | ce
  · simp only [hf] at h; exact Or.inl h
  · simp only [hf] at h
    rcases ht : truthyText ce with _ | t
    · simp only [ht] at h; exact Or.inl h
    · simp only [ht] at h
      by_cases hlen : 2 ≤ (parse_coordinates t).length
      · simp only [hlen, if_true] at h
        simp only [ConvState.append, List.mem_append, List.mem_singleton] at h
        rcases h with h | rfl
        · exact Or.inl h
        · exact Or.inr rfl
      · simp only [hlen, if_false] at h; exact Or.inl h

theorem mem_process_polygon_geoms (g : Element) (st : Style) (s : ConvState) (geo : Geometry)
    (h : geo ∈ (process_polygon g st s).1.geometries) :
    geo ∈ s.geometries ∨
      ((geo.type = "POLYGON" ∨ geo.type = "POLYGON_HOLE") ∧
        ringClosed geo.coordinates = true) := by
  unfold process_polygon at h
  rcases h1 : findLocal g "outerBoundaryIs" with _ | ob
  · simp only [h1] at h; exact Or.inl h
  · simp only [h1] at h
    rcases h2 : findLocal ob "LinearRing" with _ | lr
    · simp only [h2] at h; exact Or.inl h
    · simp only [h2] at h
      rcases h3 : findLocal lr "coordinates" with _ | ce
      · simp only [h3] at h; exact Or.inl h
      · simp only [h3] at h
        rcases h4 : truthyText ce with _ | t
        · simp only [h4] at h; exact Or.inl h
        · simp only [h4] at h
          by_cases hlen : 3 ≤ (parse_coordinates t).length
          · simp only [hlen, if_true] at h
            simp only [foldl_appendHoleStep] at h
            simp only [ConvState.append, List.mem_append, List.mem_singleton] at h
            rcases h with (h | rfl) | h
            · exact Or.inl h
            · refine Or.inr ⟨Or.inl rfl, ringClosed_closeRing _ ?_⟩
              intro hnil
              rw [hnil] at hlen
              simp at hlen
            · rcases List.mem_filterMap.mp h with ⟨inner, _, hih⟩
              unfold innerHole at hih
              rcases h5 : findLocal inner "LinearRing" with _ | ir
              · simp only [h5] at hih
                exact Option.noConfusion hih
              · simp only [h5] at hih
                rcases h6 : findLocal ir "coordinates" with _ | ice
                · simp only [h6] at hih
                  exact Option.noConfusion hih
                · simp only [h6] at hih
                  rcases h7 : truthyText ice with _ | it
                  · simp only [h7] at hih
                    exact Option.noConfusion hih
                  · simp only [h7] at hih
                    by_cases hilen : 3 ≤ (parse_coordinates it).length
                    · simp only [hilen, if_true] at hih
                      rcases Option.some.inj hih with rfl
                      refine Or.inr ⟨Or.inr rfl, ringClosed_closeRing _ ?_⟩
                      intro hnil
                      rw [hnil] at hilen
                      simp at hilen
                    · simp only [hilen, if_false] at hih
                      exact Option.noConfusion hih
          · simp only [hlen, if_false] at h; exact Or.inl h

theorem process_point_fail (g : Element) (st : Style) (s : ConvState)
    (h : (process_point g st s).2 = false) : process_point g st s = (s, false) := by
  unfold process_point at h ⊢
  rcases hf : findLocal g "coordinates" with _ | ce
  · simp only [hf]
  · simp only [hf] at h ⊢
    rcases ht : truthyText ce with _ | t
    · simp only [ht]
    · simp only [ht] at h ⊢
      by_cases hne : (parse_coordinates t).isEmpty
      · simp only [hne, if_true]
      · simp only [hne, if_false, Bool.false_eq_true] at h
        exact absurd h (by decide)

theorem process_linestring_fail (g : Element) (st : Style) (s : ConvState)
    (h : (process_linestring g st s).2 = false) : process_linestring g st s = (s, false) := by
  unfold process_linestring at h ⊢
  rcases hf : findLocal g "coordinates" with _ | ce
  · simp only [hf]
  · simp only [hf] at h ⊢
    rcases ht : truthyText ce with _ | t
    · simp only [ht]
    · simp only [ht] at h ⊢
      by_cases hlen : 2 ≤ (parse_coordinates t).length
      · simp only [hlen, if_true] at h
        exact absurd h (by decide)
      · simp only [hlen, if_false]

theorem process_polygon_fail (g : Element) (st : Style) (s : ConvState)
    (h : (process_polygon g st s).2 = false) : process_polygon g st s = (s, false) := by
  unfold process_polygon at h ⊢
  rcases h1 : findLocal g "outerBoundaryIs" with _ | ob
  · simp only [h1]
  · simp only [h1] at h ⊢
    rcases h2 : findLocal ob "LinearRing" with _ | lr
    · simp only [h2]
    · simp only [h2] at h ⊢
      rcases h3 : findLocal lr "coordinates" with _ | ce
      · simp only [h3]
      · simp only [h3] at h ⊢
        rcases h4 : truthyText ce with _ | t
        · simp only [h4]
        · simp only [h4] at h ⊢
          by_cases hlen : 3 ≤ (parse_coordinates t).length
          · simp only [hlen, if_true] at h
            exact absurd h (by decide)
          · simp only [hlen, if_false]

theorem extendsProduced_refl (s : ConvState) : extendsProduced s s :=
  fun _ h => Or.inl h

theorem extendsProduced_trans {s t u : ConvState}
    (h1 : extendsProduced s t) (h2 : extendsProduced t u) : extendsProduced s u := by
  intro geo hg
  rcases h2 geo hg with h | h
  · exact h1 geo h
  · exact Or.inr h

theorem extendsProduced_point (g : Element) (st : Style) (s : ConvState) :
    extendsProduced s (process_point g st s).1 := by
  intro geo hg
  rcases mem_process_point_geoms _ _ _ _ hg with h | h
  · exact Or.inl h
  · exact Or.inr (Or.inl h)

theorem extendsProduced_linestring (g : Element) (st : Style) (s : ConvState) :
    extendsProduced s (process_linestring g st s).1 := by
  intro geo hg
  rcases mem_process_linestring_geoms _ _ _ _ hg with h | h
  · exact Or.inl h
  · exact Or.inr (Or.inr (Or.inl h))

theorem extendsProduced_polygon (g : Element) (st : Style) (s : ConvState) :
    extendsProduced s (process_polygon g st s).1 := by
  intro geo hg
  rcases mem_process_polygon_geoms _ _ _ _ hg with h | ⟨h, _⟩
  · exact Or.inl h
  · rcases h with h | h
    · exact Or.inr (Or.inr (Or.inr (Or.inl h)))
    · exact Or.inr (Or.inr (Or.inr (Or.inr h)))

theorem extendsProduced_multiChild (st : Style) (s : ConvState) (ch : Element) :
    extendsProduced s (processMultiChild st s ch) := by
  intro geo hg
  unfold processMultiChild at hg
  by_cases ha : localName ch.tag = "Point"
  · simp only [ha, if_true] at hg
    exact extendsProduced_point _ _ _ geo hg
  · simp only [ha, if_false] at hg
    by_cases hb : localName ch.tag = "LineString"
    · simp only [hb, if_true] at hg
      exact extendsProduced_linestring _ _ _ geo hg
    · simp only [hb, if_false] at hg
      by_cases hc : localName ch.tag = "Polygon"
      · simp only [hc, if_true] at hg
        exact extendsProduced_polygon _ _ _ geo hg
      · simp only [hc, if_false] at hg
        exact Or.inl hg

theorem extendsProduced_foldl_multiChild (st : Style) :
    ∀ (l : List Element) (s : ConvState),
    extendsProduced s (l.foldl (processMultiChild st) s) := by
  intro l
  induction l with
  | nil => intro s; exact extendsProduced_refl s
  | cons a t ih =>
    intro s
    simp only [List.foldl_cons]
    exact extendsProduced_trans (extendsProduced_multiChild st s a) (ih _)

theorem dispatchStage_fail (find : Option Element)
    (proc : Element → ConvState → ConvState × Bool) (s : ConvState)
    (h : ∀ e, find = some e → proc e s = (s, false)) :
    dispatchStage find proc s = (s, false) := by
  cases find with
  | none => rfl
  | some e => exact h e rfl

theorem extendsProduced_dispatchStage (find : Option Element)
    (proc : Element → ConvState → ConvState × Bool) (s : ConvState)
    (h : ∀ e, extendsProduced s (proc e s).1) :
    extendsProduced s (dispatchStage find proc s).1 := by
  cases find with
  | none => exact extendsProduced_refl s
  | some e => exact h e

theorem mem_process_placemark_geoms (pm root : Element) (s : ConvState) :
    extendsProduced s (process_placemark pm root s).1 := by
  unfold process_placemark
  dsimp only
  apply extendsProduced_trans (t := addLayerState (extract_style_info pm root) s)
  · intro geo hg; exact Or.inl hg
  · generalize (addLayerState (extract_style_info pm root) s) = s1
    have e1 : extendsProduced s1
        (dispatchStage (findLocal pm "Point")
          (fun e => process_point e (extract_style_info pm root)) s1).1 :=
      extendsProduced_dispatchStage _ _ _
        (fun e => extendsProduced_point _ _ _)
    generalize (dispatchStage (findLocal pm "Point")
      (fun e => process_point e (extract_style_info pm root)) s1) = r1 at e1 ⊢
    have e2 : extendsProduced r1.1
        (if r1.2 then r1
         else dispatchStage (findLocal pm "LineString")
           (fun e => process_linestring e (extract_style_info pm root)) r1.1).1 := by
      by_cases hb : r1.2
      · simp only [hb, if_true]; exact extendsProduced_refl _
      · simp only [hb, if_false]
        exact extendsProduced_dispatchStage _ _ _
          (fun e => extendsProduced_linestring _ _ _)
    generalize (if r1.2 then r1
         else dispatchStage (findLocal pm "LineString")
           (fun e => process_linestring e (extract_style_info pm root)) r1.1) = r2 at e2 ⊢
    have e3 : extendsProduced r2.1
        (if r2.2 then r2
         else dispatchStage (findLocal pm "Polygon")
           (fun e => process_polygon e (extract_style_info pm root)) r2.1).1 := by
      by_cases hb : r2.2
      · simp only [hb, if_true]; exact extendsProduced_refl _
      · simp only [hb, if_false]
        exact extendsProduced_dispatchStage _ _ _
          (fun e => extendsProduced_polygon _ _ _)
    generalize (if r2.2 then r2
         else dispatchStage (findLocal pm "Polygon")
           (fun e => process_polygon e (extract_style_info pm root)) r2.1) = r3 at e3 ⊢
    apply extendsProduced_trans (extendsProduced_trans (extendsProduced_trans e1 e2) e3)
    by_cases hb : r3.2
    · simp only [hb, if_true]; exact extendsProduced_refl _
    · simp only [hb, if_false]
      rcases findLocal pm "MultiGeometry" with _ | me
      · exact extendsProduced_refl _
      · apply extendsProduced_trans (t := bumpMultiStat r3.1)
        · intro geo hg; exact Or.inl hg
        · exact extendsProduced_foldl_multiChild _ _ _

theorem process_placemark_multi_eq (pm root : Element) (s : ConvState) (me : Element)
    (hP : ∀ pe, findLocal pm "Point" = some pe →
      (process_point pe (extract_style_info pm root)
        (addLayerState (extract_style_info pm root) s)).2 = false)
    (hL : ∀ le, findLocal pm "LineString" = some le →
      (process_linestring le (extract_style_info pm root)
        (addLayerState (extract_style_info pm root) s)).2 = false)
    (hG : ∀ pge, findLocal pm "Polygon" = some pge →
      (process_polygon pge (extract_style_info pm root)
        (addLayerState (extract_style_info pm root) s)).2 = false)
    (hM : findLocal pm "MultiGeometry" = some me) :
    process_placemark pm root s =
      (me.childList.foldl (processMultiChild (extract_style_info pm root))
        (bumpMultiStat (addLayerState (extract_style_info pm root) s)), true) := by
  have h1 : dispatchStage (findLocal pm "Point")
      (fun e => process_point e (extract_style_info pm root))
      (addLayerState (extract_style_info pm root) s) =
      (addLayerState (extract_style_info pm root) s, false) :=
    dispatchStage_fail _ _ _ (fun e he => process_point_fail _ _ _ (hP e he))
  have h2 : dispatchStage (findLocal pm "LineString")
      (fun e => process_linestring e (extract_style_info pm root))
      (addLayerState (extract_style_info pm root) s) =
      (addLayerState (extract_style_info pm root) s, false) :=
    dispatchStage_fail _ _ _ (fun e he => process_linestring_fail _ _ _ (hL e he))
  have h3 : dispatchStage (findLocal pm "Polygon")
      (fun e => process_polygon e (extract_style_info pm root))
      (addLayerState (extract_style_info pm root) s) =
      (addLayerState (extract_style_info pm root) s, false) :=
    dispatchStage_fail _ _ _ (fun e he => process_polygon_fail _ _ _ (hG e he))
  unfold process_placemark
  simp only [h1, h2, h3, hM, Bool.false_eq_true, if_false]

theorem directStep_geoms (s : ConvState) (e : Element) :
    (directStep s e).geometries = s.geometries ++ (directFeature e).toList := by
  unfold directStep directFeature
  rcases truthyText e with _ | t
  · simp
  · dsimp only
    by_cases h1 : (parse_coordinates t).isEmpty
    · simp [h1]
    · simp only [h1, Bool.false_eq_true, if_false]
      by_cases h2 : (parse_coordinates t).length = 1
      · simp [h2]
      · simp only [h2, if_false]
        by_cases h3 : (parse_coordinates t).length = 2
        · simp [h3]
        · simp [h3]

theorem foldl_directStep_geoms :
    ∀ (l : List Element) (s : ConvState),
    (l.foldl directStep s).geometries = s.geometries ++ l.filterMap directFeature := by
  intro l
  induction l with
  | nil => intro s; simp
  | cons a t ih =>
    intro s
    simp only [List.foldl_cons, List.filterMap_cons]
    rw [ih, directStep_geoms]
    cases h : directFeature a <;> simp [h]

theorem process_point_success_eq (g ce : Element) (st : Style) (s : ConvState) (t : String)
    (h1 : findLocal g "coordinates" = some ce) (h2 : truthyText ce = some t)
    (h3 : (parse_coordinates t).isEmpty = false) :
    process_point g st s =
      ({ s with geometries := s.geometries ++ (parse_coordinates t).map (pointGeom st),
                stats := { s.stats with
                  points := s.stats.points + (parse_coordinates t).length } }, true) := by
  unfold process_point
  simp only [h1, h2, h3, Bool.false_eq_true, if_false]
  rw [foldl_appendPointStep]

theorem process_polygon_success_eq (g : Element) (st : Style) (s : ConvState)
    (ob lr ce : Element) (t : String)
    (h1 : findLocal g "outerBoundaryIs" = some ob)
    (h2 : findLocal ob "LinearRing" = some lr)
    (h3 : findLocal lr "coordinates" = some ce)
    (h4 : truthyText ce = some t)
    (h5 : 3 ≤ (parse_coordinates t).length) :
    process_polygon g st s =
      ({ s with
          geometries := s.geometries ++
            [{ type := "POLYGON", coordinates := closeRing (parse_coordinates t), style := st,
               count := (closeRing (parse_coordinates t)).length }] ++
            (findAllLocal g "innerBoundaryIs").filterMap (innerHole st),
          stats := { s.stats with polygons := s.stats.polygons + 1 } }, true) := by
  unfold process_polygon
  simp only [h1, h2, h3, h4]
  rw [if_pos h5, foldl_appendHoleStep]
  simp [ConvState.append, List.append_assoc]

theorem sortDocFirst_head_of_find (l : List String) (k : String)
    (h : l.find? hasDocKml = some k) : (sortDocFirst l).head? = some k := by
  induction l with
  | nil => simp at h
  | cons a t ih =>
    by_cases ha : hasDocKml a
    · rw [List.find?_cons_of_pos _ ha] at h
      rcases Option.some.inj h with rfl
      simp [sortDocFirst, List.filter_cons, ha]
    · rw [List.find?_cons_of_neg _ ha] at h
      have hk := ih h
      have hkmem : k ∈ t.filter hasDocKml := by
        rcases List.find?_some h, List.mem_of_find?_eq_some h with ⟨hp, hm⟩
        exact List.mem_filter.mpr ⟨hm, hp⟩
      have hne : t.filter hasDocKml ≠ [] := by
        intro hnil; rw [hnil] at hkmem; simp at hkmem
      simp only [sortDocFirst, List.filter_cons, ha] at hk ⊢
      simp only [if_false, Bool.false_eq_true]
      rcases hf : t.filter hasDocKml with _ | ⟨x, xs⟩
      · exact absurd hf hne
      · rw [hf] at hk
        simpa using hk

theorem sortDocFirst_head_of_none (l : List String)
    (h : l.find? hasDocKml = none) : (sortDocFirst l).head? = l.head? := by
  have hall : ∀ x ∈ l, ¬ hasDocKml x = true := by
    intro x hx
    exact List.find?_eq_none.mp h x hx
  have h1 : l.filter hasDocKml = [] := by
    rw [List.filter_eq_nil_iff]
    exact hall
  have h2 : l.filter (fun x => !hasDocKml x) = l := by
    rw [List.filter_eq_self]
    intro a ha
    simp [hall a ha]
  simp [sortDocFirst, h1, h2]

/-- Claim C1 counterexample: the direct-extraction path of geometry
extraction stores a POLYGON feature whose first and last coordinates
differ.  Parsing `unclosedDirectRoot` succeeds via the no-placemark
fallback and yields one POLYGON whose ring is not closed, so the claimed
closure invariant fails for this extraction path. -/
theorem C1_counterexample :
    (parse_kml unclosedDirectRoot initState).2 = true
    ∧ (parse_kml unclosedDirectRoot initState).1.geometries.map
        (fun g => (g.type, g.coordinates.head?, g.coordinates.getLast?)) =
      [("POLYGON", some (⟨0,0⟩, ⟨0,0⟩, ⟨0,0⟩), some (⟨2,0⟩, ⟨1,0⟩, ⟨0,0⟩))]
    ∧ (parse_kml unclosedDirectRoot initState).1.geometries.map
        (fun g => ringClosed g.coordinates) = [false] := by
  refine ⟨by decide, by decide, by decide⟩

/-- Claim C1 (amended): every POLYGON and POLYGON_HOLE feature stored by
`process_polygon` (the placemark extraction path) has value-equal first
and last coordinates, the first coordinate having been appended when the
ring was not already closed; the direct-extraction fallback, however,
stores POLYGON features as parsed, without closing them. -/
theorem C1_polygon_closure :
    (∀ (g : Element) (st : Style) (s : ConvState) (geo : Geometry),
      geo ∈ (process_polygon g st s).1.geometries →
      geo ∈ s.geometries ∨ ringClosed geo.coordinates = true)
    ∧ (∀ cs : List Coord, cs ≠ [] → ringClosed (closeRing cs) = true) := by
  constructor
  · intro g st s geo h
    rcases mem_process_polygon_geoms g st s geo h with h | ⟨_, hc⟩
    · exact Or.inl h
    · exact Or.inr hc
  · exact ringClosed_closeRing

/-- Claim C1 witness: the closure theorem applied to the concrete unclosed
square polygon. -/
theorem C1_witness :
    closedSquareGeom ∈ initState.geometries ∨
      ringClosed closedSquareGeom.coordinates = true :=
  C1_polygon_closure.1 unclosedOuterPolygon defaultStyle initState closedSquareGeom (by decide)

/-- Claim C2 counterexample: a placemark holding a MultiGeometry with a
Point child and a LineString child yields only the POINT feature — the
descendant search of the Point stage reaches inside the MultiGeometry, so
the MultiGeometry branch never runs and the LineString child is dropped,
although that child on its own is processed successfully by the same
per-kind processor.  This refutes the claim that each child of a
MultiGeometry is handled and flattened into the feature list. -/
theorem C2_counterexample :
    (process_placemark multiPointLinePm multiPointLinePm initState).1.geometries.map
        Geometry.type = ["POINT"]
    ∧ (process_placemark multiPointLinePm multiPointLinePm initState).1.stats.lines = 0
    ∧ (process_placemark multiPointLinePm multiPointLinePm initState).1.stats.multigeometries = 0
    ∧ (process_linestring multiLineChild
        (extract_style_info multiPointLinePm multiPointLinePm) initState).2 = true := by
  refine ⟨by decide, by decide, by decide, by decide⟩

/-- Claim C2 (amended): dispatch tries Point, then LineString, then
Polygon (each stage searching all descendants, so a matching child inside
a MultiGeometry is captured by the earlier stage and its siblings are
dropped), then MultiGeometry; a MultiGeometry feature kind is never
stored; and when the three per-kind stages all fail, the MultiGeometry
branch processes each direct child in order with the same per-kind
processors, flattening the results into the feature list. -/
theorem C2_dispatch :
    (∀ (pm root : Element) (s : ConvState) (geo : Geometry),
      geo ∈ (process_placemark pm root s).1.geometries →
      geo ∈ s.geometries ∨ producedType geo.type)
    ∧ (∀ ty : String, producedType ty → ty ≠ "MULTIGEOMETRY")
    ∧ (∀ (pm root : Element) (s : ConvState) (me : Element),
      (∀ pe, findLocal pm "Point" = some pe →
        (process_point pe (extract_style_info pm root)
          (addLayerState (extract_style_info pm root) s)).2 = false) →
      (∀ le, findLocal pm "LineString" = some le →
        (process_linestring le (extract_style_info pm root)
          (addLayerState (extract_style_info pm root) s)).2 = false) →
      (∀ pge, findLocal pm "Polygon" = some pge →
        (process_polygon pge (extract_style_info pm root)
          (addLayerState (extract_style_info pm root) s)).2 = false) →
      findLocal pm "MultiGeometry" = some me →
      process_placemark pm root s =
        (me.childList.foldl (processMultiChild (extract_style_info pm root))
          (bumpMultiStat (addLayerState (extract_style_info pm root) s)), true)) := by
  refine ⟨?_, ?_, ?_⟩
  · intro pm root s geo h
    exact mem_process_placemark_geoms pm root s geo h
  · intro ty h
    rcases h with h | h | h | h <;> subst h <;> decide
  · exact process_placemark_multi_eq

/-- Claim C2 witness: the MultiGeometry-branch equation applied to the
concrete placemark whose MultiGeometry holds a coordinate-less Point and a
valid Point. -/
theorem C2_witness :
    process_placemark multiTwoPointsPm multiTwoPointsPm initState =
      (multiTwoPointsMe.childList.foldl
        (processMultiChild (extract_style_info multiTwoPointsPm multiTwoPointsPm))
        (bumpMultiStat (addLayerState
          (extract_style_info multiTwoPointsPm multiTwoPointsPm) initState)), true) :=
  C2_dispatch.2.2 multiTwoPointsPm multiTwoPointsPm initState multiTwoPointsMe
    (fun pe hpe => by
      have h0 : some (el "Point" none []) = some pe := hpe
      cases Option.some.inj h0
      decide)
    (fun le hle => by
      have h0 : (none : Option Element) = some le := hle
      exact Option.noConfusion h0)
    (fun pge hpge => by
      have h0 : (none : Option Element) = some pge := hpge
      exact Option.noConfusion h0)
    rfl

/-- Claim C3: the entity loop of `create_dxf` is per-feature best-effort —
a feature whose conversion fails is skipped while every other feature
still contributes its entities; equivalently, the output is the
concatenation of the entity lists of exactly the successfully converted
features, in order. -/
theorem C3_per_feature_skip :
    (∀ (em : Geometry → Option (List Entity)) (l r : List Geometry) (g : Geometry),
      em g = none →
      create_dxf_entities em (l ++ g :: r) =
        create_dxf_entities em l ++ create_dxf_entities em r)
    ∧ (∀ (em : Geometry → Option (List Entity)) (gs : List Geometry),
      create_dxf_entities em gs = (gs.filterMap em).flatten) := by
  have hflat : ∀ (em : Geometry → Option (List Entity)) (gs : List Geometry),
      create_dxf_entities em gs = (gs.filterMap em).flatten := by
    intro em gs
    induction gs with
    | nil => rfl
    | cons g t ih => cases h : em g <;> simp [create_dxf_entities, h, ih]
  refine ⟨?_, hflat⟩
  intro em l r g hg
  induction l with
  | nil => simp [create_dxf_entities, hg]
  | cons a t ih =>
    simp only [List.cons_append]
    cases h : em a <;> simp [create_dxf_entities, h, ih]

/-- Claim C3 witness: with an emitter failing exactly on the LINESTRING
feature, the middle feature is skipped and the two others still emit. -/
theorem C3_witness :
    create_dxf_entities demoFailingEmitter ([demoPointGeom] ++ demoLineGeom :: [demoPolyGeom]) =
      create_dxf_entities demoFailingEmitter [demoPointGeom] ++
        create_dxf_entities demoFailingEmitter [demoPolyGeom] :=
  C3_per_feature_skip.1 demoFailingEmitter [demoPointGeom] [demoPolyGeom] demoLineGeom (by decide)

/-- Claim C4 counterexample: for the scenario input (one placemark named A
with a Point at 10,20,0) the emitted entity list is exactly one DXF point
at (10,20,0) and contains no TEXT entity at all — `create_dxf` has no text
emission, so the claimed TEXT entity with the display name never
appears. -/
theorem C4_counterexample :
    create_dxf demoOpts (parse_kml scenarioARoot initState).1.geometries =
      [Entity.point (⟨10,0⟩, ⟨20,0⟩, ⟨0,0⟩) "A" 7]
    ∧ (create_dxf demoOpts (parse_kml scenarioARoot initState).1.geometries).filter
        isTextEntity = [] := by
  refine ⟨by decide, by decide⟩

/-- Claim C4 (amended): the scenario input yields exactly one POINT
feature with coordinates [(10,20,0)] and display name A, and the DXF
output contains exactly one POINT entity at (10,20,0) on layer A; no TEXT
entity is ever emitted, for any feature and options — the emitter produces
no text labels. -/
theorem C4_point_emission :
    (parse_kml scenarioARoot initState).1.geometries = [scenarioAGeom]
    ∧ (parse_kml scenarioARoot initState).2 = true
    ∧ create_dxf demoOpts (parse_kml scenarioARoot initState).1.geometries =
        [Entity.point (⟨10,0⟩, ⟨20,0⟩, ⟨0,0⟩) "A" 7]
    ∧ (∀ (opts : Options) (g : Geometry) (e : Entity),
        e ∈ emit_geom opts g → isTextEntity e = false) := by
  refine ⟨by decide, by decide, by decide, ?_⟩
  intro opts g e he
  unfold emit_geom at he
  repeat' split at he
  all_goals
    first
      | exact absurd he (List.not_mem_nil e)
      | (rcases List.mem_map.mp he with ⟨c, _, rfl⟩; rfl)
      | (rcases List.mem_singleton.mp he with rfl; rfl)

/-- Claim C4 witness: the no-TEXT property applied to the scenario
feature. -/
theorem C4_witness :
    isTextEntity (Entity.point (⟨10,0⟩, ⟨20,0⟩, ⟨0,0⟩) "A" 7) = false :=
  C4_point_emission.2.2.2 demoOpts scenarioAGeom
    (Entity.point (⟨10,0⟩, ⟨20,0⟩, ⟨0,0⟩) "A" 7) (by decide)

/-- Claim C5: coordinate parsing is tolerant of malformed tokens — the
documented example parses to exactly two coordinates, empty input parses
to the empty list, parsing handles each whitespace token independently, a
token with fewer than two comma fields or a non-numeric first or second
field is skipped, and a missing or non-numeric third field yields
elevation 0. -/
theorem C5_parse_tolerance :
    parse_coordinates "1,2,3 bad-token 4,5" =
      [(⟨1,0⟩, ⟨2,0⟩, ⟨3,0⟩), (⟨4,0⟩, ⟨5,0⟩, ⟨0,0⟩)]
    ∧ parse_coordinates "" = []
    ∧ (∀ t : String, t ≠ "" →
        parse_coordinates t = (pyWhitespaceSplit (pyStrip t)).filterMap parseCoordToken)
    ∧ (∀ tok : String, (pySplitComma (pyStrip tok)).length < 2 →
        parseCoordToken tok = none)
    ∧ (∀ (tok p0 p1 : String) (rest : List String),
        pySplitComma (pyStrip tok) = p0 :: p1 :: rest →
        pyFloat (pyStrip p0) = none ∨ pyFloat (pyStrip p1) = none →
        parseCoordToken tok = none)
    ∧ (∀ (tok p0 p1 : String) (x y : Dec),
        pySplitComma (pyStrip tok) = [p0, p1] →
        pyFloat (pyStrip p0) = some x → pyFloat (pyStrip p1) = some y →
        parseCoordToken tok = some (x, y, ⟨0, 0⟩))
    ∧ (∀ (tok p0 p1 p2 : String) (rest : List String) (x y : Dec),
        pySplitComma (pyStrip tok) = p0 :: p1 :: p2 :: rest →
        pyFloat (pyStrip p0) = some x → pyFloat (pyStrip p1) = some y →
        pyFloat (pyStrip p2) = none →
        parseCoordToken tok = some (x, y, ⟨0, 0⟩)) := by
  refine ⟨by decide, by decide, ?_, ?_, ?_, ?_, ?_⟩
  · intro t ht
    unfold parse_coordinates
    rw [if_neg ht]
  · intro tok h
    unfold parseCoordToken
    rcases hs : pySplitComma (pyStrip tok) with _ | ⟨p0, _ | ⟨p1, rest⟩⟩
    · simp [hs]
    · simp [hs]
    · rw [hs] at h
      simp at h
      omega
  · intro tok p0 p1 rest hs hf
    unfold parseCoordToken
    simp only [hs]
    rcases hf with hf | hf
    · rw [hf]
    · rw [hf]
      cases pyFloat (pyStrip p0) <;> rfl
  · intro tok p0 p1 x y hs hx hy
    unfold parseCoordToken
    simp only [hs]
    rw [hx, hy]
  · intro tok p0 p1 p2 rest x y hs hx hy hz
    unfold parseCoordToken
    simp only [hs]
    rw [hx, hy, hz]
    rfl

/-- Claim C5 witness: the token rules applied at concrete tokens. -/
theorem C5_witness : parseCoordToken "bad-token" = none :=
  C5_parse_tolerance.2.2.2.1 "bad-token" (by decide)

/-- Claim C6 counterexample: a polygon whose inner boundary ring has three
coordinates but whose outer boundary is missing produces no feature at all
— the valid inner ring is dropped, refuting the claim that inner rings are
extracted regardless of the state of the outer boundary ring. -/
theorem C6_counterexample :
    process_polygon innerOnlyPolygon defaultStyle initState = (initState, false)
    ∧ ((findAllLocal innerOnlyPolygon "innerBoundaryIs").filterMap
        (innerHole defaultStyle)).length = 1 := by
  refine ⟨by decide, by decide⟩

/-- Claim C6 (amended): when the outer boundary ring is successfully
extracted (present, with nonempty coordinate text parsing to at least
three coordinates), every inner boundary ring with at least three parsed
coordinates is stored as a POLYGON_HOLE feature after the outer POLYGON,
in document order; an inner ring element yields its hole feature exactly
under those conditions; but when the outer boundary chain fails — for
example the outer boundary is absent — the whole polygon, valid inner
rings included, stores nothing. -/
theorem C6_inner_rings :
    (∀ (g : Element) (st : Style) (s : ConvState) (ob lr ce : Element) (t : String),
      findLocal g "outerBoundaryIs" = some ob →
      findLocal ob "LinearRing" = some lr →
      findLocal lr "coordinates" = some ce →
      truthyText ce = some t →
      3 ≤ (parse_coordinates t).length →
      process_polygon g st s =
        ({ s with
            geometries := s.geometries ++
              [{ type := "POLYGON", coordinates := closeRing (parse_coordinates t),
                 style := st, count := (closeRing (parse_coordinates t)).length }] ++
              (findAllLocal g "innerBoundaryIs").filterMap (innerHole st),
            stats := { s.stats with polygons := s.stats.polygons + 1 } }, true))
    ∧ (∀ (st : Style) (inner ir ice : Element) (t : String),
      findLocal inner "LinearRing" = some ir →
      findLocal ir "coordinates" = some ice →
      truthyText ice = some t →
      3 ≤ (parse_coordinates t).length →
      innerHole st inner =
        some { type := "POLYGON_HOLE", coordinates := closeRing (parse_coordinates t),
               style := st, count := (closeRing (parse_coordinates t)).length })
    ∧ (∀ (g : Element) (st : Style) (s : ConvState),
      findLocal g "outerBoundaryIs" = none → process_polygon g st s = (s, false)) := by
  refine ⟨process_polygon_success_eq, ?_, ?_⟩
  · intro st inner ir ice t h1 h2 h3 h4
    unfold innerHole
    simp only [h1, h2, h3]
    rw [if_pos h4]
  · intro g st s h
    unfold process_polygon
    simp only [h]

/-- Claim C6 witness: the success equation applied to the concrete polygon
with one inner ring. -/
theorem C6_witness :
    process_polygon outerInnerPolygon defaultStyle initState =
      ({ initState with
          geometries := initState.geometries ++
            [{ type := "POLYGON",
               coordinates := closeRing (parse_coordinates "0,0 4,0 4,4 0,4 0,0"),
               style := defaultStyle,
               count := (closeRing (parse_coordinates "0,0 4,0 4,4 0,4 0,0")).length }] ++
            (findAllLocal outerInnerPolygon "innerBoundaryIs").filterMap
              (innerHole defaultStyle),
          stats := { initState.stats with polygons := initState.stats.polygons + 1 } },
        true) :=
  C6_inner_rings.1 outerInnerPolygon defaultStyle initState
    (el "outerBoundaryIs" none [el "LinearRing" none
      [el "coordinates" (some "0,0 4,0 4,4 0,4 0,0") []]])
    (el "LinearRing" none [el "coordinates" (some "0,0 4,0 4,4 0,4 0,0") []])
    (el "coordinates" (some "0,0 4,0 4,4 0,4 0,0") [])
    "0,0 4,0 4,4 0,4 0,0" rfl rfl rfl rfl (by decide)

/-- Claim C7 counterexample: for a well-formed document with no placemarks
(and no stray coordinates elements) the conversion does NOT succeed — the
extracted feature set is empty, but `parse_kml` reports failure (the
application then shows an error and never runs the DXF emitter), refuting
the claim that such an input converts to a valid empty drawing. -/
theorem C7_counterexample :
    (parse_kml emptyDocRoot initState).2 = false
    ∧ (parse_kml emptyDocRoot initState).1.geometries = []
    ∧ (parse_kml emptyDocRoot initState).1.stats.total_placemarks = 0 := by
  refine ⟨by decide, by decide, by decide⟩

/-- Claim C7 (amended): with no placemarks, parsing falls back to direct
coordinate extraction; that fallback reports success exactly when at least
one feature was extracted, so a document with no geometry at all yields an
empty feature set together with a failure report, and emission is never
attempted — though the entity loop itself, run on an empty feature set,
would produce an empty entity list. -/
theorem C7_no_placemarks :
    (∀ (root : Element) (s : ConvState), findPlacemarks root = [] →
      parse_kml root s = extract_geometries_directly root
        { s with stats := { s.stats with total_placemarks := 0 } })
    ∧ (∀ (root : Element) (s : ConvState),
        (extract_geometries_directly root s).2 =
          decide (0 < (extract_geometries_directly root s).1.geometries.length))
    ∧ (∀ (root : Element) (s : ConvState), findAllLocal root "coordinates" = [] →
        (extract_geometries_directly root s).1 = s)
    ∧ (∀ em : Geometry → Option (List Entity), create_dxf_entities em [] = []) := by
  refine ⟨?_, ?_, ?_, ?_⟩
  · intro root s hp
    unfold parse_kml
    simp [hp]
  · intro root s
    rfl
  · intro root s hc
    unfold extract_geometries_directly
    rw [hc]
    rfl
  · intro em
    rfl

/-- Claim C7 witness: the fallback equation applied to the concrete empty
document. -/
theorem C7_witness :
    parse_kml emptyDocRoot initState = extract_geometries_directly emptyDocRoot
      { initState with stats := { initState.stats with total_placemarks := 0 } } :=
  C7_no_placemarks.1 emptyDocRoot initState rfl

/-- Claim C8: KMZ entry selection — among the `.kml` entries of the
archive listing, the first whose lowercased name contains `doc.kml` is
selected; when none does, the first `.kml` entry in listing order is
selected (and an archive without any `.kml` entry is the error branch). -/
theorem C8_kmz_selection :
    (∀ (names : List String) (k : String),
      (kmlEntries names).find? hasDocKml = some k → select_kml names = some k)
    ∧ (∀ names : List String,
      (kmlEntries names).find? hasDocKml = none →
      select_kml names = (kmlEntries names).head?) := by
  constructor
  · intro names k h
    have hmem := List.mem_of_find?_eq_some h
    have hne : (kmlEntries names).isEmpty = false := by
      cases hk : kmlEntries names
      · rw [hk] at hmem; simp at hmem
      · simp [hk]
    unfold select_kml
    simp only [hne, Bool.false_eq_true, if_false]
    exact sortDocFirst_head_of_find _ _ h
  · intro names h
    unfold select_kml
    by_cases hk : (kmlEntries names).isEmpty
    · have hnil : kmlEntries names = [] := by
        cases hk2 : kmlEntries names
        · rfl
        · rw [hk2] at hk; simp at hk
      simp [hk, hnil]
    · simp only [hk, Bool.false_eq_true, if_false]
      exact sortDocFirst_head_of_none _ h

/-- Claim C8 witness: the doc-preference rule applied to a concrete
listing. -/
theorem C8_witness :
    select_kml ["z.png", "a.kml", "files/doc.kml"] = some "files/doc.kml" :=
  C8_kmz_selection.1 ["z.png", "a.kml", "files/doc.kml"] "files/doc.kml" (by decide)

/-- Claim C9: a single Point element with N parsed coordinates yields N
separate POINT features — one per coordinate, each with a one-element
coordinate list and the same style — and the points statistic grows by N;
the feature appended per coordinate is exactly the single-coordinate POINT
dictionary. -/
theorem C9_point_fanout :
    (∀ (g ce : Element) (st : Style) (s : ConvState) (t : String),
      findLocal g "coordinates" = some ce → truthyText ce = some t →
      (parse_coordinates t).isEmpty = false →
      process_point g st s =
        ({ s with geometries := s.geometries ++ (parse_coordinates t).map (pointGeom st),
                  stats := { s.stats with
                    points := s.stats.points + (parse_coordinates t).length } }, true))
    ∧ (∀ (st : Style) (c : Coord),
        pointGeom st c = { type := "POINT", coordinates := [c], style := st, count := 1 }) :=
  ⟨process_point_success_eq, fun _ _ => rfl⟩

/-- Claim C9 witness: the fan-out equation applied to a concrete Point
with two coordinate tokens. -/
theorem C9_witness :
    process_point twoPointElem defaultStyle initState =
      ({ initState with
          geometries := initState.geometries ++
            (parse_coordinates "1,1,0 2,2,0").map (pointGeom defaultStyle),
          stats := { initState.stats with
            points := initState.stats.points +
              (parse_coordinates "1,1,0 2,2,0").length } }, true) :=
  C9_point_fanout.1 twoPointElem (el "coordinates" (some "1,1,0 2,2,0") []) defaultStyle
    initState "1,1,0 2,2,0" rfl rfl (by decide)

/-- Claim C10: the geometry list produced by direct extraction appends,
for each `coordinates` descendant in document order, the feature its
parsed coordinate count selects — exactly 1 coordinate a POINT, exactly 2
a LINESTRING, 3 or more a POLYGON, each with color 7, width 0, fill on,
layer `Extracted`; and `parse_kml` runs this fallback exactly when there
are no placemarks at all or no placemark produced a geometry. -/
theorem C10_direct_classification :
    (∀ (root : Element) (s : ConvState),
      (extract_geometries_directly root s).1.geometries =
        s.geometries ++ (findAllLocal root "coordinates").filterMap directFeature)
    ∧ (∀ n : String, extractedStyle n =
        { color := 7, width := ⟨0, 0⟩, layer := "Extracted", filled := true, name := n })
    ∧ (∀ (e : Element) (t : String), truthyText e = some t →
        (parse_coordinates t).length = 1 →
        directFeature e =
          some { type := "POINT", coordinates := parse_coordinates t, style := extractedStyle "Point", count := 1 })
    ∧ (∀ (e : Element) (t : String), truthyText e = some t →
        (parse_coordinates t).length = 2 →
        directFeature e =
          some { type := "LINESTRING", coordinates := parse_coordinates t, style := extractedStyle "Line", count := 2 })
    ∧ (∀ (e : Element) (t : String), truthyText e = some t →
        3 ≤ (parse_coordinates t).length →
        directFeature e =
          some { type := "POLYGON", coordinates := parse_coordinates t, style := extractedStyle "Polygon", count := (parse_coordinates t).length })
    ∧ (∀ (root : Element) (s : ConvState), findPlacemarks root = [] →
        parse_kml root s = extract_geometries_directly root
          { s with stats := { s.stats with total_placemarks := 0 } })
    ∧ (∀ (root : Element) (s : ConvState), findPlacemarks root ≠ [] →
        (processPlacemarks (findPlacemarks root) root
          { s with stats := { s.stats with
            total_placemarks := (findPlacemarks root).length } }).2 = 0 →
        parse_kml root s = extract_geometries_directly root
          (processPlacemarks (findPlacemarks root) root
            { s with stats := { s.stats with
              total_placemarks := (findPlacemarks root).length } }).1) := by
  refine ⟨?_, ?_, ?_, ?_, ?_, ?_, ?_⟩
  · intro root s
    unfold extract_geometries_directly
    exact foldl_directStep_geoms _ _
  · intro n
    rfl
  · intro e t h1 h2
    have hne : (parse_coordinates t).isEmpty = false := by
      cases hp : parse_coordinates t
      · rw [hp] at h2; simp at h2
      · simp
    unfold directFeature
    simp [h1, hne, h2]
  · intro e t h1 h2
    have hne : (parse_coordinates t).isEmpty = false := by
      cases hp : parse_coordinates t
      · rw [hp] at h2; simp at h2
      · simp
    have hn1 : ¬ (parse_coordinates t).length = 1 := by omega
    unfold directFeature
    simp [h1, hne, hn1, h2]
  · intro e t h1 h2
    have hne : (parse_coordinates t).isEmpty = false := by
      cases hp : parse_coordinates t
      · rw [hp] at h2; simp at h2
      · simp
    have hn1 : ¬ (parse_coordinates t).length = 1 := by omega
    have hn2 : ¬ (parse_coordinates t).length = 2 := by omega
    unfold directFeature
    simp [h1, hne, hn1, hn2]
  · intro root s hp
    unfold parse_kml
    simp [hp]
  · intro root s hp h0
    unfold parse_kml
    have hne : (findPlacemarks root).isEmpty = false := by
      cases hk : findPlacemarks root
      · exact absurd hk hp
      · simp
    simp only [hne, Bool.false_eq_true, if_false]
    simp only [h0, if_pos]

/-- Claim C10 witness: the classification applied to a concrete
two-coordinate element. -/
theorem C10_witness :
    directFeature twoCoordElem =
      some { type := "LINESTRING", coordinates := parse_coordinates "7,8 9,10", style := extractedStyle "Line", count := 2 } :=
  C10_direct_classification.2.2.2.1 twoCoordElem "7,8 9,10" rfl (by decide)
